import Mathlib

/-!
Shallow embedding of the ospine TCP port scanner (Rust) for specification
verification.  Sources embedded: src/types.rs (data model, RateLimiter),
src/protocols.rs (detect_from_bytes, identify_and_banner and the probes),
src/scanner.rs (scan_one, scan_ports), src/main.rs (temp-journal creation,
NDJSON journal and final artifact assembly).

Network and file-system effects are modelled by explicit oracles: a
NetOracle records what each read/write on the live TCP stream would
produce, a TempEnv records clock samples and exclusive-create outcomes.
Machine integers (u8/u16/u64) are modelled as Nat; byte buffers as
List Nat of byte values.
-/

/-- types.rs: `enum Protocol` (closed tag set). -/
inductive Protocol where
  | Http
  | Https
  | Ssh
  | Smtp
  | Tls
  | Telnet
  | Dns
  | Mysql
  | Unknown
deriving DecidableEq

/-- types.rs: `struct ScanResult`. `port` is a u16 value. -/
structure ScanResult where
  target : String
  port : Nat
  «open» : Bool
  protocol : Option Protocol
  banner : Option String
  error : Option String
deriving DecidableEq

/-- types.rs: `struct ScanConfig` (the timeout and the shared limiter
references are concurrency-side data absorbed by the oracles). -/
structure ScanConfig where
  target : String
  port_spec : List Nat
  concurrency : Nat
  banner_read_len : Nat
  passive : Bool
deriving DecidableEq

/- ## protocols.rs helpers -/

/-- Bytes of an ASCII string, used for the literal byte-string constants. -/
def strBytes (s : String) : List Nat := s.data.map Char.toNat

/-- u8::to_ascii_lowercase. -/
def toLowerByte (b : Nat) : Nat := if 65 ≤ b ∧ b ≤ 90 then b + 32 else b

/-- protocols.rs `tw_contains_ci`: case-insensitive ASCII search of needle in
haystack via sliding windows of the needle's length. -/
def tw_contains_ci (haystack needle : List Nat) : Bool :=
  if needle.isEmpty then true
  else winAny haystack (needle.map toLowerByte)
where
  winAny : List Nat → List Nat → Bool
    | [], _ => false
    | h :: t, n =>
      if (h :: t).length < n.length then false
      else (((h :: t).take n.length).map toLowerByte == n) || winAny t n

/-- Unicode replacement character U+FFFD. -/
def replChar : Char := Char.ofNat 0xFFFD

/-- Is a UTF-8 continuation byte (0x80..=0xBF). -/
def isCont (b : Nat) : Bool := 0x80 ≤ b && b ≤ 0xBF

/-- std `String::from_utf8_lossy` body, with a step-count fuel so the
recursion is structural (each step consumes at least one byte, so fuel =
input length always suffices): UTF-8 decoding with U+FFFD substitution of
maximal subparts on invalid sequences. -/
def utf8LossyGo : Nat → List Nat → List Char
  | 0, _ => []
  | _, [] => []
  | fuel + 1, b0 :: r0 =>
    if b0 < 0x80 then Char.ofNat b0 :: utf8LossyGo fuel r0
    else if 0xC2 ≤ b0 && b0 ≤ 0xDF then
      match r0 with
      | [] => [replChar]
      | b1 :: r1 =>
        if isCont b1 then
          Char.ofNat ((b0 - 0xC0) * 0x40 + (b1 - 0x80)) :: utf8LossyGo fuel r1
        else replChar :: utf8LossyGo fuel (b1 :: r1)
    else if b0 == 0xE0 || (0xE1 ≤ b0 && b0 ≤ 0xEF) then
      match r0 with
      | [] => [replChar]
      | b1 :: r1 =>
        if (if b0 == 0xE0 then 0xA0 ≤ b1 && b1 ≤ 0xBF
            else if b0 == 0xED then 0x80 ≤ b1 && b1 ≤ 0x9F
            else isCont b1) then
          match r1 with
          | [] => [replChar]
          | b2 :: r2 =>
            if isCont b2 then
              Char.ofNat ((b0 - 0xE0) * 0x1000 + (b1 - 0x80) * 0x40 + (b2 - 0x80))
                :: utf8LossyGo fuel r2
            else replChar :: utf8LossyGo fuel (b2 :: r2)
        else replChar :: utf8LossyGo fuel (b1 :: r1)
    else if 0xF0 ≤ b0 && b0 ≤ 0xF4 then
      match r0 with
      | [] => [replChar]
      | b1 :: r1 =>
        if (if b0 == 0xF0 then 0x90 ≤ b1 && b1 ≤ 0xBF
            else if b0 == 0xF4 then 0x80 ≤ b1 && b1 ≤ 0x8F
            else isCont b1) then
          match r1 with
          | [] => [replChar]
          | b2 :: r2 =>
            if isCont b2 then
              match r2 with
              | [] => [replChar]
              | b3 :: r3 =>
                if isCont b3 then
                  Char.ofNat ((b0 - 0xF0) * 0x40000 + (b1 - 0x80) * 0x1000
                      + (b2 - 0x80) * 0x40 + (b3 - 0x80)) :: utf8LossyGo fuel r3
                else replChar :: utf8LossyGo fuel (b3 :: r3)
            else replChar :: utf8LossyGo fuel (b2 :: r2)
        else replChar :: utf8LossyGo fuel (b1 :: r1)
    else replChar :: utf8LossyGo fuel r0

/-- std `String::from_utf8_lossy`. -/
def utf8Lossy (l : List Nat) : List Char := utf8LossyGo l.length l

/-- Drop every trailing NUL character. -/
def trimEndNul (l : List Char) : List Char :=
  (l.reverse.dropWhile (fun c => c == '\x00')).reverse

/-- protocols.rs `to_safe_string`: lossy UTF-8 decode, then truncate to the
length without trailing NULs. -/
def to_safe_string (buf : List Nat) : String :=
  String.mk (trimEndNul (utf8Lossy buf))

/-- One lowercase hexadecimal digit. -/
def hexChar (d : Nat) : Char :=
  match d with
  | 0 => '0' | 1 => '1' | 2 => '2' | 3 => '3' | 4 => '4'
  | 5 => '5' | 6 => '6' | 7 => '7' | 8 => '8' | 9 => '9'
  | 10 => 'a' | 11 => 'b' | 12 => 'c' | 13 => 'd' | 14 => 'e'
  | _ => 'f'

/-- `write!("{:02x}", b)` for a byte value. -/
def hex2 (b : Nat) : List Char := [hexChar (b / 16 % 16), hexChar (b % 16)]

/-- The truncation marker pushed by hex_preview; the source file literally
contains these three characters. -/
def hexMark : String := "â€¦"

/-- protocols.rs `hex_preview`: "hex:" then the first 64 bytes in lowercase
hex, with a truncation marker when longer. -/
def hex_preview (buf : List Nat) : String :=
  let take := min buf.length 64
  String.mk ("hex:".data ++ (buf.take take).flatMap hex2)
    ++ (if buf.length > 64 then hexMark else "")

/-- protocols.rs `detect_from_bytes`: ordered heuristic classification of a
received byte buffer, first match wins, falling back to port hints. -/
def detect_from_bytes (buf : List Nat) (port_hint : Nat) : Protocol × Option String :=
  if (strBytes "SSH-").isPrefixOf buf then
    (Protocol.Ssh, some (to_safe_string buf))
  else if (strBytes "220 ").isPrefixOf buf then
    (Protocol.Smtp, some (to_safe_string buf))
  else if (strBytes "HTTP/").isPrefixOf buf then
    (Protocol.Http, some (to_safe_string buf))
  else if buf.head? == some 0xFF
      || tw_contains_ci buf (strBytes "login:")
      || tw_contains_ci buf (strBytes "username:")
      || tw_contains_ci buf (strBytes "password:") then
    (Protocol.Telnet, some (to_safe_string buf))
  else if buf.get? 0 == some 0x16 && buf.get? 1 == some 0x03 then
    (Protocol.Tls, some (hex_preview buf))
  else if 14 ≤ buf.length
      && ((buf.getD (2 + 2) 0).land 0x80 != 0)
      && port_hint == 53 then
    (Protocol.Dns, some (hex_preview buf))
  else
    match port_hint with
    | 80 => (Protocol.Http, none)
    | 8080 => (Protocol.Http, none)
    | 8000 => (Protocol.Http, none)
    | 8888 => (Protocol.Http, none)
    | 443 => (Protocol.Https, none)
    | 8443 => (Protocol.Https, none)
    | 22 => (Protocol.Ssh, none)
    | 23 => (Protocol.Telnet, none)
    | 25 => (Protocol.Smtp, none)
    | 587 => (Protocol.Smtp, none)
    | 465 => (Protocol.Smtp, none)
    | 53 => (Protocol.Dns, none)
    | _ => (Protocol.Unknown, none)

/- ## protocols.rs: network oracle and probes

A ProbeIO records the observable outcome of one active probe's I/O on the
live stream: whether the probe payload was written within the timeout, and
what `read_some` then returned (`none` models a timeout, a read error, or a
0-byte read, all of which `read_some` collapses into `Err(())`). -/

structure ProbeIO where
  write_ok : Bool
  resp : Option (List Nat)
deriving DecidableEq

/-- The observable stream behaviour during one identify_and_banner call:
the passive `read_some` outcome plus the outcome of each probe exchange. -/
structure NetOracle where
  passive_read : Option (List Nat)
  dns_io : ProbeIO
  http_io : ProbeIO
  telnet_io : ProbeIO
  tls_io : ProbeIO
deriving DecidableEq

/-- protocols.rs `http_probe`: send HEAD request, succeed only when a
nonempty reply starts with "HTTP/". -/
def http_probe (io : ProbeIO) : Except Unit (Protocol × Option String) :=
  if !io.write_ok then .error ()
  else
    match io.resp with
    | some buf =>
      if !buf.isEmpty then
        if (strBytes "HTTP/").isPrefixOf buf then
          .ok (Protocol.Http, some (to_safe_string buf))
        else .error ()
      else .error ()
    | none => .error ()

/-- protocols.rs `telnet_probe`: send CRLF, succeed only when a nonempty
reply looks like Telnet (IAC first byte or a login/username/password
prompt, case-insensitively). -/
def telnet_probe (io : ProbeIO) : Except Unit (Protocol × Option String) :=
  if !io.write_ok then .error ()
  else
    match io.resp with
    | some buf =>
      if !buf.isEmpty then
        if buf.head? == some 0xFF
            || tw_contains_ci buf (strBytes "login:")
            || tw_contains_ci buf (strBytes "username:")
            || tw_contains_ci buf (strBytes "password:") then
          .ok (Protocol.Telnet, some (to_safe_string buf))
        else .error ()
      else .error ()
    | none => .error ()

/-- "{:04x}" formatting of a u16 value. -/
def hex4 (n : Nat) : String :=
  String.mk [hexChar (n / 4096 % 16), hexChar (n / 256 % 16),
             hexChar (n / 16 % 16), hexChar (n % 16)]

/-- Decimal digit character. -/
def decChar (d : Nat) : Char :=
  match d with
  | 0 => '0' | 1 => '1' | 2 => '2' | 3 => '3' | 4 => '4'
  | 5 => '5' | 6 => '6' | 7 => '7' | 8 => '8' | _ => '9'

/-- Decimal digit list body with a step-count fuel so the recursion is
structural (each step divides by 10, so fuel = n + 1 always suffices). -/
def natDigitsGo : Nat → Nat → List Char
  | 0, _ => []
  | fuel + 1, n =>
    if n < 10 then [decChar n]
    else natDigitsGo fuel (n / 10) ++ [decChar (n % 10)]

/-- Decimal digit list of a Nat (most significant first), as Display does. -/
def natDigits (n : Nat) : List Char := natDigitsGo (n + 1) n

/-- Decimal rendering of a Nat, as Rust Display for unsigned integers. -/
def natDec (n : Nat) : String := String.mk (natDigits n)

/-- protocols.rs `dns_probe`: send a fixed length-prefixed DNS query for
example.com A (query ID 0x4f53), then classify the reply by its DNS-over-TCP
header: require the QR bit, and summarise ID, QDCOUNT, ANCOUNT and RCODE in
a banner string, marking length-complete replies. -/
def dns_probe (io : ProbeIO) : Except Unit (Protocol × Option String) :=
  if !io.write_ok then .error ()
  else
    match io.resp with
    | some buf =>
      if !buf.isEmpty then
        let hs_ok : Nat × Bool :=
          if 2 ≤ buf.length then
            let total := (buf.getD 0 0) * 256 + buf.getD 1 0
            if 2 + 12 ≤ buf.length then (2, decide (2 + total ≤ buf.length))
            else (2, false)
          else (0, false)
        let hs := hs_ok.1
        let total_len_ok := hs_ok.2
        if buf.length < hs + 12 then .error ()
        else
          let flags_hi := buf.getD (hs + 2) 0
          let flags_lo := buf.getD (hs + 3) 0
          let qr := flags_hi.land 0x80 != 0
          let rcode := flags_lo.land 0x0F
          let qdcount := (buf.getD (hs + 4) 0) * 256 + buf.getD (hs + 5) 0
          let ancount := (buf.getD (hs + 6) 0) * 256 + buf.getD (hs + 7) 0
          let resp_id := (buf.getD (hs + 0) 0) * 256 + buf.getD (hs + 1) 0
          if !qr then .error ()
          else
            let banner := "dns id=0x" ++ hex4 resp_id ++ " qd=" ++ natDec qdcount
              ++ " an=" ++ natDec ancount ++ " rcode=" ++ natDec rcode
              ++ (if total_len_ok then " complete" else "")
            .ok (Protocol.Dns, some banner)
      else .error ()
    | none => .error ()

/-- protocols.rs `tls_probe`: send the fixed minimal ClientHello, succeed
only when a nonempty reply starts with bytes 0x16 0x03 (TLS handshake
record), with a hex preview banner. -/
def tls_probe (io : ProbeIO) : Except Unit (Protocol × Option String) :=
  if !io.write_ok then .error ()
  else
    match io.resp with
    | some buf =>
      if !buf.isEmpty then
        if buf.get? 0 == some 0x16 && buf.get? 1 == some 0x03 then
          .ok (Protocol.Tls, some (hex_preview buf))
        else .error ()
      else .error ()
    | none => .error ()

/-- protocols.rs `identify_and_banner`, active-probe cascade after the
passive read produced nothing: DNS probe only on port 53, then HTTP, then
Telnet, then TLS, each falling through on failure, ending at
(Unknown, no banner).  Note the Rust definition takes no passive-mode
parameter (its caller in scanner.rs passes one, which the signature in
protocols.rs does not accept), so nothing here consults the passive flag. -/
def identify_active2 (net : NetOracle) : Option Protocol × Option String :=
  match http_probe net.http_io with
  | .ok pb => (some pb.1, pb.2)
  | .error _ =>
    match telnet_probe net.telnet_io with
    | .ok pb => (some pb.1, pb.2)
    | .error _ =>
      match tls_probe net.tls_io with
      | .ok pb => (some pb.1, pb.2)
      | .error _ => (some Protocol.Unknown, none)

/-- The probe cascade including the port-53-only DNS probe. -/
def identify_active (net : NetOracle) (port : Nat) : Option Protocol × Option String :=
  if port == 53 then
    match dns_probe net.dns_io with
    | .ok pb => (some pb.1, pb.2)
    | .error _ => identify_active2 net
  else identify_active2 net

/-- protocols.rs `identify_and_banner`: passive read first; when at least
one byte arrived, classify those bytes and return, taking the classified
banner or else the raw safe-decoded bytes; otherwise run the active probe
cascade. -/
def identify_and_banner (net : NetOracle) (port : Nat) : Option Protocol × Option String :=
  match net.passive_read with
  | some buf =>
    if !buf.isEmpty then
      let pb := detect_from_bytes buf port
      (some pb.1, some (pb.2.getD (to_safe_string buf)))
    else identify_active net port
  | none => identify_active net port

/- ## scanner.rs -/

/-- The observable outcome of `time::timeout(cfg.timeout, TcpStream::connect(..))`
for one port: overall timeout, a transport/OS connect error, or a live
connection whose stream behaviour is the given oracle. -/
inductive ConnectOutcome where
  | timeout
  | connErr (msg : String)
  | connected (net : NetOracle)
deriving DecidableEq

/-- scanner.rs `scan_one`: classify a single port from its connect outcome
(the rate-limiter and global-permit acquisitions are suspension points with
no effect on the produced value). -/
def scan_one (cfg : ScanConfig) (port : Nat) (oc : ConnectOutcome) : ScanResult :=
  match oc with
  | .timeout =>
    { target := cfg.target, port := port, «open» := false,
      protocol := none, banner := none, error := some "timeout" }
  | .connErr e =>
    { target := cfg.target, port := port, «open» := false,
      protocol := none, banner := none, error := some e }
  | .connected net =>
    let pb := identify_and_banner net port
    { target := cfg.target, port := port, «open» := true,
      protocol := pb.1, banner := pb.2, error := none }

/-- scanner.rs `scan_ports` per-port unit of work: a structural task failure
(`Err(e)`, modelled by the task oracle) is converted into a synthetic
ScanResult with a "task error: …" message; otherwise the scan_one value is
pushed. -/
def task_result (cfg : ScanConfig) (port : Nat)
    (tk : Nat → Except String ConnectOutcome) : ScanResult :=
  match tk port with
  | .ok oc => scan_one cfg port oc
  | .error e =>
    { target := cfg.target, port := port, «open» := false,
      protocol := none, banner := none, error := some ("task error: " ++ e) }

/-- The sort key relation of `out.sort_by_key(|r| r.port)`. -/
def portLE (a b : ScanResult) : Prop := a.port ≤ b.port

instance : DecidableRel portLE := fun a b => inferInstanceAs (Decidable (a.port ≤ b.port))

instance : IsTotal ScanResult portLE := ⟨fun a b => Nat.le_total a.port b.port⟩

instance : IsTrans ScanResult portLE := ⟨fun _ _ _ => Nat.le_trans⟩

/-- `out.sort_by_key(|r| r.port)`: a stable sort by ascending port
(modelled by insertion sort, which is stable, like Rust's sort_by_key). -/
def sortByPort (l : List ScanResult) : List ScanResult := List.insertionSort portLE l

/-- scanner.rs `scan_ports`: every port's task pushes exactly one result
into the shared vector; concurrent completion makes the push order an
arbitrary permutation `completion` of the port list; the collected vector
is then sorted by port. -/
def scan_ports (cfg : ScanConfig) (tk : Nat → Except String ConnectOutcome)
    (completion : List Nat) : List ScanResult :=
  sortByPort (completion.map (fun p => task_result cfg p tk))

/- ## types.rs: RateLimiter

Time is modelled in nanoseconds as Nat; `Instant::now()` values enter as
explicit arguments.  `Duration::from_secs(1)` is oneSec. -/

def oneSec : Nat := 1000000000

/-- types.rs `struct RateInner`. -/
structure RateInner where
  rate_per_sec : Nat
  window_start : Nat
  count_in_window : Nat
deriving DecidableEq

/-- types.rs `RateLimiter::new`: rate floored at 1, fresh window, count 0. -/
def RateLimiter.new (rate_per_sec : Nat) (now : Nat) : RateInner :=
  { rate_per_sec := max rate_per_sec 1, window_start := now, count_in_window := 0 }

/-- The window-reset step at the top of `acquire`'s loop body: if at least
one second elapsed since window_start, start a new window at `now`. -/
def reset_if_elapsed (s : RateInner) (now : Nat) : RateInner :=
  if oneSec ≤ now - s.window_start then
    { s with window_start := now, count_in_window := 0 }
  else s

/-- One pass of `RateLimiter::acquire`'s loop: either a token is taken (the
call returns without suspending) or the caller must sleep for the remainder
of the current window and retry. -/
inductive AcquireStep where
  | acquired (s : RateInner)
  | sleep (dur : Nat) (s : RateInner)
deriving DecidableEq

/-- The post state of a loop pass. -/
def AcquireStep.state : AcquireStep → RateInner
  | .acquired s => s
  | .sleep _ s => s

/-- types.rs `RateLimiter::acquire`, one loop iteration at time `now`:
reset the window if a second elapsed, take a token when below the rate,
otherwise sleep `1s - elapsed` (saturating) and retry later. -/
def RateLimiter.acquire1 (s : RateInner) (now : Nat) : AcquireStep :=
  if (reset_if_elapsed s now).count_in_window < (reset_if_elapsed s now).rate_per_sec then
    .acquired { reset_if_elapsed s now with
      count_in_window := (reset_if_elapsed s now).count_in_window + 1 }
  else
    .sleep (oneSec - (now - s.window_start)) (reset_if_elapsed s now)

/-- `n` back-to-back acquire() calls all issued at time `now`; `some s`
means every call returned immediately (no suspension) leaving state `s`. -/
def acquireN (s : RateInner) (now : Nat) : Nat → Option RateInner
  | 0 => some s
  | n + 1 =>
    match RateLimiter.acquire1 s now with
    | .acquired s' => acquireN s' now n
    | .sleep _ _ => none

/- ## main.rs: NDJSON journal and final artifact -/

/-- serde_json string escaping for one character: quote, backslash and the
named control escapes, other control characters as \u00XX. -/
def escChar (c : Char) : List Char :=
  if c = '"' then ['\\', '"']
  else if c = '\\' then ['\\', '\\']
  else if c = '\x08' then ['\\', 'b']
  else if c = '\x0c' then ['\\', 'f']
  else if c = '\x0a' then ['\\', 'n']
  else if c = '\x0d' then ['\\', 'r']
  else if c = '\x09' then ['\\', 't']
  else if c.toNat < 0x20 then
    ['\\', 'u', '0', '0', hexChar (c.toNat / 16), hexChar (c.toNat % 16)]
  else [c]

/-- serde_json serialization of a Rust String. -/
def jsonStr (s : String) : String :=
  "\"" ++ String.mk (s.data.flatMap escChar) ++ "\""

/-- serde's tag for a unit enum variant of Protocol (the variant name). -/
def protoTag : Protocol → String
  | .Http => "Http"
  | .Https => "Https"
  | .Ssh => "Ssh"
  | .Smtp => "Smtp"
  | .Tls => "Tls"
  | .Telnet => "Telnet"
  | .Dns => "Dns"
  | .Mysql => "Mysql"
  | .Unknown => "Unknown"

/-- serde_json for Option of Protocol. -/
def serProto : Option Protocol → String
  | none => "null"
  | some p => "\"" ++ protoTag p ++ "\""

/-- serde_json for Option of String. -/
def serOptStr : Option String → String
  | none => "null"
  | some s => jsonStr s

/-- `serde_json::to_string(&ScanResult)`: one JSON object in declared field
order. -/
def serResult (r : ScanResult) : String :=
  "\x7b\"target\":" ++ jsonStr r.target
    ++ ",\"port\":" ++ natDec r.port
    ++ ",\"open\":" ++ (if r.«open» then "true" else "false")
    ++ ",\"protocol\":" ++ serProto r.protocol
    ++ ",\"banner\":" ++ serOptStr r.banner
    ++ ",\"error\":" ++ serOptStr r.error
    ++ "\x7d"

/-- main.rs: the temporary NDJSON journal content after writing each result
with `writeln!(tmp_writer, "{}", line)` in arrival order. -/
def journal : List ScanResult → String
  | [] => ""
  | r :: rs => serResult r ++ "\x0a" ++ journal rs

/-- Remove one trailing CR, as `BufRead::lines` does after stripping the
newline terminator. -/
def dropTrailCR (l : List Char) : List Char :=
  match l.getLast? with
  | some '\x0d' => l.dropLast
  | _ => l

/-- `BufRead::lines` splitting: each '\n'-terminated chunk is yielded
without its terminator (and without a preceding '\r'); a final unterminated
nonempty chunk is yielded as-is. -/
def linesAux : List Char → List Char → List String
  | [], cur => if cur.isEmpty then [] else [String.mk cur]
  | c :: rest, cur =>
    if c = '\x0a' then String.mk (dropTrailCR cur) :: linesAux rest []
    else linesAux rest (cur ++ [c])

/-- `BufReader::lines` over the rewound journal file content. -/
def rust_lines (s : String) : List String := linesAux s.data []

/-- main.rs final artifact assembly: read the journal back line by line,
skip empty lines, and join the (already serialized) objects inside a
top-level results array. -/
def reassemble (content : String) : String :=
  "\x7b\"results\":["
    ++ String.intercalate "," ((rust_lines content).filter (fun l => !l.data.isEmpty))
    ++ "]\x7d"

/-- A direct serialization of the same result list as a single
results-array object. -/
def artifact (results : List ScanResult) : String :=
  "\x7b\"results\":[" ++ String.intercalate "," (results.map serResult) ++ "]\x7d"

/- ## main.rs: temporary journal creation -/

/-- The file-system and clock facts consulted while creating the temp
journal: the process id, the nanosecond clock sample taken on each attempt,
and whether `OpenOptions::create_new` (exclusive, no-clobber) succeeds for
a given candidate name. -/
structure TempEnv where
  pid : Nat
  nanosAt : Nat → Nat
  create_ok : String → Bool

/-- The randomized candidate file name of one attempt:
"ospine.{pid}.{nanos}.{attempt}.ndjson.tmp". -/
def temp_name (pid nanos attempt : Nat) : String :=
  "ospine." ++ natDec pid ++ "." ++ natDec nanos ++ "." ++ natDec attempt
    ++ ".ndjson.tmp"

/-- main.rs `for attempt in 0..3u8` loop: try the exclusive create under a
fresh randomized name, breaking at the first success. -/
def create_temp_loop (env : TempEnv) : Nat → Nat → Option String
  | _, 0 => none
  | attempt, fuel + 1 =>
    if env.create_ok (temp_name env.pid (env.nanosAt attempt) attempt) then
      some (temp_name env.pid (env.nanosAt attempt) attempt)
    else create_temp_loop env (attempt + 1) fuel

/-- The whole creation sequence: three attempts. -/
def create_temp_file (env : TempEnv) : Option String := create_temp_loop env 0 3

/-- main.rs persistence pipeline: temp journal creation happens before any
result line is journaled or the save-file artifact is produced; exhausting
the creation attempts aborts the run with the fatal error (`ok_or_else`
followed by `?`). -/
def run_persist (env : TempEnv) (results : List ScanResult) : Except String String :=
  match create_temp_file env with
  | none => .error "failed to create secure temp file after several attempts"
  | some _ => .ok (reassemble (journal results))

/- ## Shared helper lemmas -/

/-- The synthetic or scanned result of a port task always carries that
port. -/
theorem task_result_port (cfg : ScanConfig) (tk : Nat → Except String ConnectOutcome)
    (p : Nat) : (task_result cfg p tk).port = p := by
  unfold task_result
  cases tk p with
  | error e => rfl
  | ok oc => cases oc <;> rfl

/-- Membership in scan_ports output coincides with membership in the
unsorted per-port result list. -/
theorem mem_scan_ports_iff (cfg : ScanConfig) (tk : Nat → Except String ConnectOutcome)
    (comp : List Nat) (r : ScanResult) :
    r ∈ scan_ports cfg tk comp ↔ r ∈ comp.map (fun p => task_result cfg p tk) :=
  (List.perm_insertionSort portLE _).mem_iff

/-- The active probe cascade always reports some protocol tag. -/
theorem identify_active2_fst_isSome (net : NetOracle) :
    (identify_active2 net).1.isSome = true := by
  unfold identify_active2
  cases hh : http_probe net.http_io with
  | ok pb => rfl
  | error u =>
    cases ht : telnet_probe net.telnet_io with
    | ok pb => rfl
    | error u =>
      cases hs : tls_probe net.tls_io with
      | ok pb => rfl
      | error u => rfl

/-- The probe cascade including the DNS step always reports some tag. -/
theorem identify_active_fst_isSome (net : NetOracle) (port : Nat) :
    (identify_active net port).1.isSome = true := by
  unfold identify_active
  split
  · cases hd : dns_probe net.dns_io with
    | ok pb => rfl
    | error u => exact identify_active2_fst_isSome net
  · exact identify_active2_fst_isSome net

/-- identify_and_banner returns a present protocol tag on every path. -/
theorem identify_fst_isSome (net : NetOracle) (port : Nat) :
    (identify_and_banner net port).1.isSome = true := by
  unfold identify_and_banner
  cases net.passive_read with
  | none => exact identify_active_fst_isSome net port
  | some buf =>
    by_cases hb : buf.isEmpty
    · simp only [hb]
      exact identify_active_fst_isSome net port
    · simp only [Bool.not_eq_true] at hb
      simp only [hb]
      rfl

/- ## C1 -/

/-- The scan configuration of a run started with --passive. -/
def passiveCfg : ScanConfig :=
  { target := "h", port_spec := [80], concurrency := 100,
    banner_read_len := 512, passive := true }

/-- A connection that sends nothing passively but answers the HTTP probe. -/
def httpNet : NetOracle :=
  { passive_read := none,
    dns_io := { write_ok := false, resp := none },
    http_io := { write_ok := true, resp := some (strBytes "HTTP/1.1 200 OK\r\n") },
    telnet_io := { write_ok := false, resp := none },
    tls_io := { write_ok := false, resp := none } }

/-- C1: the claim (and the code's own documentation of ScanConfig.passive
and the --passive flag) says a set passive flag suppresses all active
probes and yields Unknown with no banner on an empty passive read.  The
code violates this: protocols.rs' identify_and_banner takes no passive
parameter at all (its caller in scanner.rs even passes cfg.passive as a
fifth argument that the four-parameter definition cannot accept), so with
passive=true and an empty passive read the HTTP/Telnet/TLS probes still
run: here a probe-answering port yields (Http, banner), not
(Unknown, none). -/
theorem passive_mode_ignored_by_detector :
    passiveCfg.passive = true ∧
    scan_one passiveCfg 80 (.connected httpNet) =
      { target := "h", port := 80, «open» := true,
        protocol := some Protocol.Http,
        banner := some "HTTP/1.1 200 OK\r\n", error := none } ∧
    identify_and_banner httpNet 80 ≠ (some Protocol.Unknown, none) := by
  refine ⟨rfl, by decide, by decide⟩

/- ## C2 -/

/-- A one-port scan config for exercising the task-failure conversion. -/
def cfgBoom : ScanConfig :=
  { target := "h", port_spec := [22], concurrency := 100,
    banner_read_len := 512, passive := false }

/-- A task oracle whose unit of work terminates abnormally on every port. -/
def tkBoom : Nat → Except String ConnectOutcome := fun _ => .error "boom"

/-- C2 counterexample: a structurally failed task for port 22 produces a
synthetic result whose port is 22, not 0: the code writes the scanned
`port` into the synthetic ScanResult, so the claim that failures are
signalled with port number 0 is false. -/
theorem task_failure_port_not_zero_cx :
    (task_result cfgBoom 22 tkBoom).port = 22 ∧
    (task_result cfgBoom 22 tkBoom).port ≠ 0 ∧
    (task_result cfgBoom 22 tkBoom).error = some "task error: boom" := by
  refine ⟨rfl, by decide, rfl⟩

/-- C2 amended: a structural task failure is converted into a synthetic
ScanResult carrying the descriptive "task error: …" message, and that
synthetic result carries the actual scanned port (not port 0). -/
theorem task_failure_synthetic_result (cfg : ScanConfig)
    (tk : Nat → Except String ConnectOutcome) (p : Nat) (e : String)
    (h : tk p = .error e) :
    task_result cfg p tk =
      { target := cfg.target, port := p, «open» := false, protocol := none,
        banner := none, error := some ("task error: " ++ e) } := by
  unfold task_result
  rw [h]

/-- Witness for task_failure_synthetic_result at a concrete failing task. -/
theorem task_failure_synthetic_result_witness :
    tkBoom 22 = .error "boom" ∧
    task_result cfgBoom 22 tkBoom =
      { target := "h", port := 22, «open» := false, protocol := none,
        banner := none, error := some ("task error: " ++ "boom") } :=
  ⟨rfl, task_failure_synthetic_result cfgBoom tkBoom 22 "boom" rfl⟩

/- ## C4 -/

/-- C4 counterexample: the SSH example's banner is not the CRLF-stripped
text the claim states; to_safe_string trims only trailing NULs, so the
banner keeps the trailing "\r\n". -/
theorem detect_ssh_banner_cx :
    detect_from_bytes (strBytes "SSH-2.0-OpenSSH_8.2p1\r\n") 22
      ≠ (Protocol.Ssh, some "SSH-2.0-OpenSSH_8.2p1") := by
  decide

/-- C4 amended: byte classification applies the tabulated rules in order
with first match winning and is a pure, deterministic function of
(bytes, port) — re-running on the same buffer yields the same pair by
definition.  For any port: the SSH example classifies as Ssh with the full
lossily-decoded buffer (trailing CRLF included) as banner, the SMTP and
HTTP examples classify as Smtp resp. Http, each with the full buffer text
as banner. -/
theorem detect_from_bytes_examples (port : Nat) :
    detect_from_bytes (strBytes "SSH-2.0-OpenSSH_8.2p1\r\n") port
      = (Protocol.Ssh, some "SSH-2.0-OpenSSH_8.2p1\r\n") ∧
    detect_from_bytes (strBytes "220 mail.example.com ESMTP\r\n") port
      = (Protocol.Smtp, some "220 mail.example.com ESMTP\r\n") ∧
    detect_from_bytes (strBytes "HTTP/1.1 200 OK\r\n") port
      = (Protocol.Http, some "HTTP/1.1 200 OK\r\n") ∧
    detect_from_bytes (strBytes "SSH-2.0-OpenSSH_8.2p1\r\n") port
      = detect_from_bytes (strBytes "SSH-2.0-OpenSSH_8.2p1\r\n") port := by
  exact ⟨rfl, rfl, rfl, rfl⟩

/- ## C5 -/

/-- A connection that never sends anything and answers no probe: the
passive read returns nothing and every probe write already fails. -/
def deadNet : NetOracle :=
  { passive_read := none,
    dns_io := { write_ok := false, resp := none },
    http_io := { write_ok := false, resp := none },
    telnet_io := { write_ok := false, resp := none },
    tls_io := { write_ok := false, resp := none } }

/-- C5 counterexample: an empty passive read on port 22 with no probe
success is classified (Unknown, no banner), not the port-hint (Ssh, no
banner) — the port-hint table is only consulted inside detect_from_bytes,
which runs only on a nonempty read. -/
theorem empty_read_port22_unknown_cx :
    identify_and_banner deadNet 22 = (some Protocol.Unknown, none) ∧
    identify_and_banner deadNet 22 ≠ (some Protocol.Ssh, none) := by
  exact ⟨rfl, by decide⟩

/-- C5 amended: when the passive read yields no bytes and every active
probe fails, identify_and_banner classifies the connection as Unknown with
no banner, for every port (22 included); it never falls back to the
port-hint table on an empty read. -/
theorem empty_read_no_probe_unknown (net : NetOracle) (port : Nat)
    (hp : net.passive_read = none ∨ net.passive_read = some [])
    (hd : dns_probe net.dns_io = .error ())
    (hh : http_probe net.http_io = .error ())
    (ht : telnet_probe net.telnet_io = .error ())
    (hs : tls_probe net.tls_io = .error ()) :
    identify_and_banner net port = (some Protocol.Unknown, none) := by
  have h2 : identify_active2 net = (some Protocol.Unknown, none) := by
    unfold identify_active2
    rw [hh, ht, hs]
  have ha : identify_active net port = (some Protocol.Unknown, none) := by
    unfold identify_active
    split
    · rw [hd]
      exact h2
    · exact h2
  unfold identify_and_banner
  rcases hp with hp | hp <;> rw [hp] <;> exact ha

/-- Witness for empty_read_no_probe_unknown on the dead connection at
port 22. -/
theorem empty_read_no_probe_unknown_witness :
    (deadNet.passive_read = none ∨ deadNet.passive_read = some []) ∧
    dns_probe deadNet.dns_io = .error () ∧
    http_probe deadNet.http_io = .error () ∧
    telnet_probe deadNet.telnet_io = .error () ∧
    tls_probe deadNet.tls_io = .error () ∧
    identify_and_banner deadNet 22 = (some Protocol.Unknown, none) :=
  ⟨Or.inl rfl, rfl, rfl, rfl, rfl,
    empty_read_no_probe_unknown deadNet 22 (Or.inl rfl) rfl rfl rfl rfl⟩

/- ## C3 -/

/-- The ScanResult shape invariant of the spec: closed ports carry no
protocol and no banner but do carry an error; open ports carry no error. -/
def ResultInvariant (r : ScanResult) : Prop :=
  (r.«open» = false → r.protocol = none ∧ r.banner = none ∧ r.error.isSome = true) ∧
  (r.«open» = true → r.error = none)

/-- C3: every ScanResult produced by the scanner — over every target
configuration, every per-port connect/task outcome and every completion
order — satisfies the invariant: open=false forces protocol=none,
banner=none and a present error; open=true forces error=none. -/
theorem scan_result_invariant_holds (cfg : ScanConfig)
    (tk : Nat → Except String ConnectOutcome) (comp : List Nat) :
    ∀ r ∈ scan_ports cfg tk comp, ResultInvariant r := by
  intro r hr
  have hm : r ∈ comp.map (fun p => task_result cfg p tk) :=
    (mem_scan_ports_iff cfg tk comp r).mp hr
  obtain ⟨p, _, rfl⟩ := List.mem_map.mp hm
  unfold task_result
  cases tk p with
  | error e => exact ⟨fun _ => ⟨rfl, rfl, rfl⟩, fun h => Bool.noConfusion h⟩
  | ok oc =>
    cases oc with
    | timeout => exact ⟨fun _ => ⟨rfl, rfl, rfl⟩, fun h => Bool.noConfusion h⟩
    | connErr e => exact ⟨fun _ => ⟨rfl, rfl, rfl⟩, fun h => Bool.noConfusion h⟩
    | connected net => exact ⟨fun h => Bool.noConfusion h, fun _ => rfl⟩

/-- Config for the C3 witness scan. -/
def cfgInv : ScanConfig :=
  { target := "h", port_spec := [22], concurrency := 100,
    banner_read_len := 512, passive := false }

/-- Task oracle for the C3 witness scan: every connect times out. -/
def tkTimeout : Nat → Except String ConnectOutcome := fun _ => .ok .timeout

/-- Witness for scan_result_invariant_holds on a concrete timed-out scan. -/
theorem scan_result_invariant_holds_witness :
    ({ target := "h", port := 22, «open» := false, protocol := none,
       banner := none, error := some "timeout" } : ScanResult)
      ∈ scan_ports cfgInv tkTimeout [22] ∧
    ResultInvariant
      { target := "h", port := 22, «open» := false, protocol := none,
        banner := none, error := some "timeout" } :=
  ⟨by decide, scan_result_invariant_holds cfgInv tkTimeout [22] _ (by decide)⟩

/- ## C10 -/

/-- Config for the C10 witness scan. -/
def cfgOpen : ScanConfig :=
  { target := "h", port_spec := [22], concurrency := 100,
    banner_read_len := 512, passive := false }

/-- Task oracle for the C10 witness: the connection opens but stays mute. -/
def tkOpenMute : Nat → Except String ConnectOutcome :=
  fun _ => .ok (.connected deadNet)

/-- C10: identify_and_banner returns a present protocol tag on every path
(worst case some Unknown, never none), hence every scanner result with
open=true carries a present protocol even when classification failed. -/
theorem open_results_have_protocol :
    (∀ (net : NetOracle) (port : Nat),
      (identify_and_banner net port).1.isSome = true) ∧
    (∀ (cfg : ScanConfig) (tk : Nat → Except String ConnectOutcome)
      (comp : List Nat), ∀ r ∈ scan_ports cfg tk comp,
      r.«open» = true → r.protocol.isSome = true) := by
  refine ⟨identify_fst_isSome, ?_⟩
  intro cfg tk comp r hr hopen
  have hm : r ∈ comp.map (fun p => task_result cfg p tk) :=
    (mem_scan_ports_iff cfg tk comp r).mp hr
  obtain ⟨p, _, rfl⟩ := List.mem_map.mp hm
  revert hopen
  unfold task_result
  cases tk p with
  | error e => exact fun h => Bool.noConfusion h
  | ok oc =>
    cases oc with
    | timeout => exact fun h => Bool.noConfusion h
    | connErr e => exact fun h => Bool.noConfusion h
    | connected net => exact fun _ => identify_fst_isSome net p

/-- Witness for open_results_have_protocol: a mute open port yields a
result with open=true whose protocol is present (some Unknown). -/
theorem open_results_have_protocol_witness :
    ({ target := "h", port := 22, «open» := true,
       protocol := some Protocol.Unknown, banner := none,
       error := none } : ScanResult) ∈ scan_ports cfgOpen tkOpenMute [22] ∧
    ({ target := "h", port := 22, «open» := true,
       protocol := some Protocol.Unknown, banner := none,
       error := none } : ScanResult).protocol.isSome = true :=
  ⟨by decide,
    open_results_have_protocol.2 cfgOpen tkOpenMute [22] _ (by decide) rfl⟩

/- ## C6 -/

/-- The reset step does nothing while the window is still current. -/
theorem reset_noop (s : RateInner) (now : Nat)
    (h : ¬ oneSec ≤ now - s.window_start) : reset_if_elapsed s now = s := by
  unfold reset_if_elapsed
  rw [if_neg h]

/-- Crossing the 1-second boundary resets count to 0 and window_start to
now, keeping the rate. -/
theorem reset_fires (s : RateInner) (now : Nat)
    (h : oneSec ≤ now - s.window_start) :
    reset_if_elapsed s now = ⟨s.rate_per_sec, now, 0⟩ := by
  unfold reset_if_elapsed
  rw [if_pos h]

/-- Helper: from a state with `k` tokens consumed in a window begun at the
same instant, `n` further immediate acquire() calls all succeed while the
total stays within the rate. -/
theorem acquireN_run (r t0 k n : Nat) (hk : k + n ≤ r) :
    acquireN ⟨r, t0, k⟩ t0 n = some ⟨r, t0, k + n⟩ := by
  induction n generalizing k with
  | zero => rfl
  | succ n ih =>
    have hlt : k < r := by omega
    have hno : ¬ (oneSec ≤ t0 - t0) := by
      rw [Nat.sub_self]
      decide
    have hstep : RateLimiter.acquire1 ⟨r, t0, k⟩ t0 = .acquired ⟨r, t0, k + 1⟩ := by
      unfold RateLimiter.acquire1
      rw [reset_noop _ _ hno]
      rw [if_pos hlt]
    show acquireN ⟨r, t0, k⟩ t0 (n + 1) = _
    unfold acquireN
    rw [hstep]
    have heq : k + 1 + n = k + (n + 1) := by omega
    show acquireN ⟨r, t0, k + 1⟩ t0 n = _
    rw [ih (k + 1) (by omega), heq]

/-- The behaviour the rate-limiter claim asserts, for a configured rate `r`
starting a fresh window at `t0`:
1. any `n ≤ r` back-to-back acquire() calls at `t0` all return without
   suspending, ending with count n;
2. with the window full, the next call at `t0` suspends for the full
   remaining second;
3. retrying once the 1-second window elapsed succeeds immediately in a new
   window;
4. one acquire pass never pushes count_in_window above the rate;
5. crossing the 1-second boundary resets the window (count 0, start now),
   after which the call acquires leaving count 1. -/
def RateSpec (r t0 : Nat) : Prop :=
  (∀ n, n ≤ r → acquireN (RateLimiter.new r t0) t0 n = some ⟨r, t0, n⟩) ∧
  (RateLimiter.acquire1 ⟨r, t0, r⟩ t0 = .sleep oneSec ⟨r, t0, r⟩) ∧
  (RateLimiter.acquire1 ⟨r, t0, r⟩ (t0 + oneSec) = .acquired ⟨r, t0 + oneSec, 1⟩) ∧
  (∀ (s : RateInner) (now : Nat), s.count_in_window ≤ s.rate_per_sec →
    ((RateLimiter.acquire1 s now).state).count_in_window
      ≤ ((RateLimiter.acquire1 s now).state).rate_per_sec) ∧
  (∀ (s : RateInner) (now : Nat), 1 ≤ s.rate_per_sec →
    oneSec ≤ now - s.window_start →
    reset_if_elapsed s now = ⟨s.rate_per_sec, now, 0⟩ ∧
    RateLimiter.acquire1 s now = .acquired ⟨s.rate_per_sec, now, 1⟩)

/-- C6: for every configured rate r ≥ 1 the limiter admits r immediate
acquires, suspends the (r+1)-th for the remainder of the 1-second window,
admits it again once the window elapsed, keeps count_in_window within the
rate, and resets count and window_start on crossing the boundary. -/
theorem rate_limiter_window_spec (r t0 : Nat) (hr : 1 ≤ r) : RateSpec r t0 := by
  have hno : ¬ (oneSec ≤ t0 - t0) := by
    rw [Nat.sub_self]
    decide
  refine ⟨?_, ?_, ?_, ?_, ?_⟩
  · intro n hn
    have hnew : RateLimiter.new r t0 = ⟨r, t0, 0⟩ := by
      unfold RateLimiter.new
      rw [Nat.max_eq_left hr]
    rw [hnew]
    have := acquireN_run r t0 0 n (by omega)
    simpa using this
  · unfold RateLimiter.acquire1
    rw [reset_noop _ _ hno]
    rw [if_neg (Nat.lt_irrefl r)]
    rw [Nat.sub_self, Nat.sub_zero]
  · have hyes : oneSec ≤ (t0 + oneSec) - t0 := by omega
    unfold RateLimiter.acquire1
    rw [reset_fires _ _ hyes]
    rw [if_pos (by omega : (0 : Nat) < r)]
  · intro s now hcount
    unfold RateLimiter.acquire1
    by_cases hlt : (reset_if_elapsed s now).count_in_window
        < (reset_if_elapsed s now).rate_per_sec
    · rw [if_pos hlt]
      simp only [AcquireStep.state]
      omega
    · rw [if_neg hlt]
      simp only [AcquireStep.state]
      by_cases hw : oneSec ≤ now - s.window_start
      · rw [reset_fires _ _ hw]
        exact Nat.zero_le _
      · rw [reset_noop _ _ hw]
        exact hcount
  · intro s now h1 helapsed
    refine ⟨reset_fires s now helapsed, ?_⟩
    unfold RateLimiter.acquire1
    rw [reset_fires _ _ helapsed]
    rw [if_pos (by omega : (0 : Nat) < s.rate_per_sec)]

/-- Witness for rate_limiter_window_spec at rate 2 and window start 0. -/
theorem rate_limiter_window_spec_witness : 1 ≤ 2 ∧ RateSpec 2 0 :=
  ⟨by decide, rate_limiter_window_spec 2 0 (by decide)⟩

/- ## C7 -/

/-- Two sorted permutations of each other are equal when distinct elements
never share a port (sort keys determine elements). -/
theorem eq_of_perm_sorted_keydet :
    ∀ (l₁ l₂ : List ScanResult), l₁.Perm l₂ →
    List.Sorted portLE l₁ → List.Sorted portLE l₂ →
    (∀ x ∈ l₁, ∀ y ∈ l₁, x.port = y.port → x = y) → l₁ = l₂ := by
  intro l₁
  induction l₁ with
  | nil =>
    intro l₂ hp _ _ _
    exact hp.nil_eq
  | cons a t ih =>
    intro l₂ hp hs₁ hs₂ hkd
    cases l₂ with
    | nil =>
      have := hp.eq_nil
      simp at this
    | cons b t₂ =>
      have hab : a = b := by
        have ha2 : a ∈ b :: t₂ := hp.mem_iff.mp (List.mem_cons_self a t)
        rcases List.mem_cons.mp ha2 with h | h
        · exact h
        · have hb1 : b ∈ a :: t := hp.symm.mem_iff.mp (List.mem_cons_self b t₂)
          rcases List.mem_cons.mp hb1 with h' | h'
          · exact h'.symm
          · have h1 : portLE a b := (List.sorted_cons.mp hs₁).1 b h'
            have h2 : portLE b a := (List.sorted_cons.mp hs₂).1 a h
            exact hkd a (List.mem_cons_self a t) b (List.mem_cons_of_mem a h')
              (Nat.le_antisymm h1 h2)
      subst hab
      have ht : t.Perm t₂ := hp.cons_inv
      have htail : t = t₂ :=
        ih t₂ ht (List.sorted_cons.mp hs₁).2 (List.sorted_cons.mp hs₂).2
          (fun x hx y hy hxy =>
            hkd x (List.mem_cons_of_mem a hx) y (List.mem_cons_of_mem a hy) hxy)
      rw [htail]

/-- In the per-port result list, equal ports force equal results, because
each element's port is the port it was produced for. -/
theorem keydet_of_map (cfg : ScanConfig) (tk : Nat → Except String ConnectOutcome)
    (comp : List Nat) :
    ∀ x ∈ comp.map (fun p => task_result cfg p tk),
    ∀ y ∈ comp.map (fun p => task_result cfg p tk),
    x.port = y.port → x = y := by
  intro x hx y hy hxy
  obtain ⟨px, _, rfl⟩ := List.mem_map.mp hx
  obtain ⟨py, _, rfl⟩ := List.mem_map.mp hy
  rw [task_result_port, task_result_port] at hxy
  rw [hxy]

/-- The scan output does not depend on which completion order the
concurrently finishing port tasks happened to take. -/
theorem scan_ports_perm_indep (cfg : ScanConfig)
    (tk : Nat → Except String ConnectOutcome) (c₁ c₂ : List Nat)
    (h₁ : c₁.Perm cfg.port_spec) (h₂ : c₂.Perm cfg.port_spec) :
    scan_ports cfg tk c₁ = scan_ports cfg tk c₂ := by
  apply eq_of_perm_sorted_keydet
  · exact (List.perm_insertionSort _ _).trans
      (((h₁.trans h₂.symm).map _).trans (List.perm_insertionSort _ _).symm)
  · exact List.sorted_insertionSort _ _
  · exact List.sorted_insertionSort _ _
  · intro x hx y hy hxy
    exact keydet_of_map cfg tk c₁ x
      ((List.perm_insertionSort portLE _).mem_iff.mp hx) y
      ((List.perm_insertionSort portLE _).mem_iff.mp hy) hxy

/-- What the ordering-and-completeness claim asserts of one scan run whose
tasks completed in order `comp`: one result per requested port (same
length, and the output ports are a permutation of the requested ports),
output sorted ascending by port, and the same output for any other
completion order of the same ports. -/
def ScanPortsSpec (cfg : ScanConfig) (tk : Nat → Except String ConnectOutcome)
    (comp : List Nat) : Prop :=
  (scan_ports cfg tk comp).length = cfg.port_spec.length ∧
  ((scan_ports cfg tk comp).map (fun r => r.port)).Perm cfg.port_spec ∧
  List.Sorted portLE (scan_ports cfg tk comp) ∧
  (∀ comp₂, comp₂.Perm cfg.port_spec → scan_ports cfg tk comp₂ = scan_ports cfg tk comp)

/-- Config of the concrete ordering example of the claim. -/
def cfgOrd : ScanConfig :=
  { target := "h", port_spec := [443, 22, 80], concurrency := 100,
    banner_read_len := 512, passive := false }

/-- Task oracle of the ordering example (all connects time out). -/
def tkOrd : Nat → Except String ConnectOutcome := fun _ => .ok .timeout

/-- C7: for every target, port list and completion order, scan_ports
produces exactly one ScanResult per requested port and returns them sorted
ascending by port, independently of the completion order; concretely,
ports [443,22,80] come back ordered [22,80,443]. -/
theorem scan_ports_sorted_complete :
    (∀ (cfg : ScanConfig) (tk : Nat → Except String ConnectOutcome)
      (comp : List Nat), comp.Perm cfg.port_spec → ScanPortsSpec cfg tk comp) ∧
    (scan_ports cfgOrd tkOrd [80, 443, 22]).map (fun r => r.port) = [22, 80, 443] := by
  constructor
  · intro cfg tk comp hcomp
    refine ⟨?_, ?_, List.sorted_insertionSort _ _, ?_⟩
    · calc (scan_ports cfg tk comp).length
          = (comp.map (fun p => task_result cfg p tk)).length :=
            (List.perm_insertionSort portLE _).length_eq
        _ = comp.length := List.length_map _ _
        _ = cfg.port_spec.length := hcomp.length_eq
    · have h1 : (scan_ports cfg tk comp).map (fun r => r.port)
          |>.Perm ((comp.map (fun p => task_result cfg p tk)).map (fun r => r.port)) :=
        (List.perm_insertionSort portLE _).map _
      have h2 : (comp.map (fun p => task_result cfg p tk)).map (fun r => r.port) = comp := by
        rw [List.map_map]
        have : ∀ p ∈ comp, (fun r => r.port) (task_result cfg p tk) = p :=
          fun p _ => task_result_port cfg tk p
        calc comp.map ((fun r => r.port) ∘ (fun p => task_result cfg p tk))
            = comp.map id := List.map_congr_left this
          _ = comp := List.map_id comp
      rw [h2] at h1
      exact h1.trans hcomp
    · intro comp₂ h₂
      exact scan_ports_perm_indep cfg tk comp₂ comp h₂ hcomp
  · decide

/-- Witness for the universal part of scan_ports_sorted_complete at the
concrete ordering example with completion order [22,443,80]. -/
theorem scan_ports_sorted_complete_witness :
    ([22, 443, 80] : List Nat).Perm cfgOrd.port_spec ∧
    ScanPortsSpec cfgOrd tkOrd [22, 443, 80] :=
  ⟨by decide, scan_ports_sorted_complete.1 cfgOrd tkOrd [22, 443, 80] (by decide)⟩

/- ## C8 -/

/-- A string with no raw newline character in it. -/
@[reducible] def NoNL (s : String) : Prop := '\x0a' ∉ s.data

/-- NoNL is closed under append. -/
theorem noNL_append {a b : String} (ha : NoNL a) (hb : NoNL b) : NoNL (a ++ b) := by
  intro h
  rw [String.data_append] at h
  rcases List.mem_append.mp h with h | h
  · exact ha h
  · exact hb h

/-- Hex digits are never a newline. -/
theorem hexChar_ne_nl (d : Nat) : hexChar d ≠ '\x0a' := by
  unfold hexChar
  split <;> decide

/-- Decimal digits are never a newline. -/
theorem decChar_ne_nl (d : Nat) : decChar d ≠ '\x0a' := by
  unfold decChar
  split <;> decide

/-- Decimal renderings contain only digit characters, never a newline. -/
theorem natDigitsGo_ne_nl (fuel : Nat) :
    ∀ (n : Nat) (c : Char), c ∈ natDigitsGo fuel n → c ≠ '\x0a' := by
  induction fuel with
  | zero =>
    intro n c hc
    simp [natDigitsGo] at hc
  | succ fuel ih =>
    intro n c hc
    unfold natDigitsGo at hc
    split at hc
    · simp at hc
      subst hc
      exact decChar_ne_nl n
    · rcases List.mem_append.mp hc with h | h
      · exact ih (n / 10) c h
      · simp at h
        subst h
        exact decChar_ne_nl _

/-- natDec never contains a newline. -/
theorem natDec_noNL (n : Nat) : NoNL (natDec n) := by
  intro h
  exact natDigitsGo_ne_nl (n + 1) n _ h rfl

/-- The serde escaping of a character never produces a newline. -/
theorem escChar_ne_nl (c : Char) : ∀ x ∈ escChar c, x ≠ '\x0a' := by
  intro x hx
  unfold escChar at hx
  split_ifs at hx with h1 h2 h3 h4 h5 h6 h7 h8
  · rcases hx with _ | ⟨_, _ | ⟨_, h⟩⟩
    · decide
    · decide
    · cases h
  · rcases hx with _ | ⟨_, _ | ⟨_, h⟩⟩
    · decide
    · decide
    · cases h
  · rcases hx with _ | ⟨_, _ | ⟨_, h⟩⟩
    · decide
    · decide
    · cases h
  · rcases hx with _ | ⟨_, _ | ⟨_, h⟩⟩
    · decide
    · decide
    · cases h
  · rcases hx with _ | ⟨_, _ | ⟨_, h⟩⟩
    · decide
    · decide
    · cases h
  · rcases hx with _ | ⟨_, _ | ⟨_, h⟩⟩
    · decide
    · decide
    · cases h
  · rcases hx with _ | ⟨_, _ | ⟨_, h⟩⟩
    · decide
    · decide
    · cases h
  · rcases hx with _ | ⟨_, _ | ⟨_, _ | ⟨_, _ | ⟨_, _ | ⟨_, _ | ⟨_, h⟩⟩⟩⟩⟩⟩
    · decide
    · decide
    · decide
    · decide
    · exact hexChar_ne_nl _
    · exact hexChar_ne_nl _
    · cases h
  · rcases hx with _ | ⟨_, h⟩
    · exact h5
    · cases h

/-- JSON-escaped strings never contain a raw newline. -/
theorem jsonStr_noNL (s : String) : NoNL (jsonStr s) := by
  intro h
  unfold jsonStr at h
  rw [String.data_append, String.data_append] at h
  rcases List.mem_append.mp h with h | h
  · rcases List.mem_append.mp h with h | h
    · simp at h
    · obtain ⟨a, _, ha⟩ := List.mem_flatMap.mp h
      exact escChar_ne_nl a _ ha rfl
  · simp at h

/-- Serialized protocol options never contain a newline. -/
theorem serProto_noNL (p : Option Protocol) : NoNL (serProto p) := by
  cases p with
  | none => decide
  | some pp => cases pp <;> decide

/-- Serialized string options never contain a newline. -/
theorem serOptStr_noNL (o : Option String) : NoNL (serOptStr o) := by
  cases o with
  | none => decide
  | some s => exact jsonStr_noNL s

/-- A serialized ScanResult line never contains a raw newline. -/
theorem serResult_noNL (r : ScanResult) : NoNL (serResult r) := by
  unfold serResult
  refine noNL_append ?_ (by decide)
  refine noNL_append ?_ (serOptStr_noNL _)
  refine noNL_append ?_ (by decide)
  refine noNL_append ?_ (serOptStr_noNL _)
  refine noNL_append ?_ (by decide)
  refine noNL_append ?_ (serProto_noNL _)
  refine noNL_append ?_ (by decide)
  refine noNL_append ?_ (by split <;> decide)
  refine noNL_append ?_ (by decide)
  refine noNL_append ?_ (natDec_noNL _)
  refine noNL_append ?_ (by decide)
  exact noNL_append (by decide) (jsonStr_noNL _)

/-- A serialized ScanResult line ends with the closing object brace. -/
theorem serResult_getLast (r : ScanResult) :
    (serResult r).data.getLast? = some '\x7d' := by
  unfold serResult
  rw [String.data_append]
  exact List.getLast?_concat _

/-- A serialized ScanResult line is nonempty. -/
theorem serResult_isEmpty_false (r : ScanResult) :
    (serResult r).data.isEmpty = false := by
  have h := serResult_getLast r
  cases hd : (serResult r).data with
  | nil =>
    rw [hd] at h
    exact absurd h (by decide)
  | cons a l => rfl

/-- The CR strip after line splitting does nothing to a serialized result
line (it ends in the closing brace). -/
theorem dropTrailCR_ser (r : ScanResult) :
    dropTrailCR (serResult r).data = (serResult r).data := by
  unfold dropTrailCR
  rw [serResult_getLast]
  rfl

/-- Splitting off one newline-terminated chunk that contains no newline. -/
theorem linesAux_chunk :
    ∀ (lc rest cur : List Char), '\x0a' ∉ lc →
    linesAux (lc ++ '\x0a' :: rest) cur
      = String.mk (dropTrailCR (cur ++ lc)) :: linesAux rest [] := by
  intro lc
  induction lc with
  | nil =>
    intro rest cur h
    rw [List.append_nil]
    rfl
  | cons c lc ih =>
    intro rest cur h
    have hc : ¬ (c = '\x0a') := fun hh => h (hh ▸ List.mem_cons_self c lc)
    have hstep : linesAux ((c :: lc) ++ '\x0a' :: rest) cur
        = if c = '\x0a' then
            String.mk (dropTrailCR cur) :: linesAux (lc ++ '\x0a' :: rest) []
          else linesAux (lc ++ '\x0a' :: rest) (cur ++ [c]) := rfl
    rw [hstep, if_neg hc]
    rw [ih rest (cur ++ [c]) (fun hm => h (List.mem_cons_of_mem c hm))]
    rw [List.append_assoc]
    rfl

/-- Reading the journal back line by line recovers exactly the serialized
result lines, in order. -/
theorem rust_lines_journal :
    ∀ results : List ScanResult,
      rust_lines (journal results) = results.map serResult := by
  intro results
  induction results with
  | nil => rfl
  | cons r rs ih =>
    show linesAux (journal (r :: rs)).data [] = _
    have hdata : (journal (r :: rs)).data
        = (serResult r).data ++ '\x0a' :: (journal rs).data := by
      show ((serResult r ++ "\x0a") ++ journal rs).data = _
      rw [String.data_append, String.data_append, List.append_assoc]
      rfl
    rw [hdata]
    rw [linesAux_chunk _ _ _ (serResult_noNL r)]
    rw [List.nil_append, dropTrailCR_ser r]
    show serResult r :: rust_lines (journal rs) = _
    rw [ih]
    rfl

/-- The empty-line skip of the assembly loop keeps every serialized
result. -/
theorem filter_nonempty_map_ser (results : List ScanResult) :
    (results.map serResult).filter (fun l => !l.data.isEmpty)
      = results.map serResult := by
  apply List.filter_eq_self.mpr
  intro a ha
  obtain ⟨r, _, rfl⟩ := List.mem_map.mp ha
  rw [serResult_isEmpty_false]
  rfl

/-- C8: reassembling the NDJSON journal of any N results produces exactly
the direct single-object serialization of those N results, byte for byte
(so in particular the same set of result objects); for N=0 both are
exactly the literal empty-results object. -/
theorem journal_round_trip :
    (∀ results : List ScanResult, reassemble (journal results) = artifact results) ∧
    reassemble (journal ([] : List ScanResult)) = "\x7b\"results\":[]\x7d" ∧
    artifact ([] : List ScanResult) = "\x7b\"results\":[]\x7d" := by
  refine ⟨?_, rfl, rfl⟩
  intro results
  unfold reassemble artifact
  rw [rust_lines_journal, filter_nonempty_map_ser]

/- ## C9 -/

/-- C9: temp journal creation attempts the exclusive create under a fresh
randomized name at most three times: if all three attempts fail the run
aborts with the fatal error before producing any persisted output, and a
success on the k-th attempt (shown for k=2, the last) yields that
attempt's name. -/
theorem temp_creation_three_attempts (env : TempEnv) :
    ((∀ k, k < 3 → env.create_ok (temp_name env.pid (env.nanosAt k) k) = false) →
      create_temp_file env = none ∧
      ∀ results, run_persist env results =
        .error "failed to create secure temp file after several attempts") ∧
    (env.create_ok (temp_name env.pid (env.nanosAt 0) 0) = false →
     env.create_ok (temp_name env.pid (env.nanosAt 1) 1) = false →
     env.create_ok (temp_name env.pid (env.nanosAt 2) 2) = true →
     create_temp_file env = some (temp_name env.pid (env.nanosAt 2) 2)) := by
  constructor
  · intro hall
    have h0 := hall 0 (by decide)
    have h1 := hall 1 (by decide)
    have h2 := hall 2 (by decide)
    have hnone : create_temp_file env = none := by
      simp only [create_temp_file, create_temp_loop, h0, h1, h2]
      simp
    refine ⟨hnone, fun results => ?_⟩
    unfold run_persist
    rw [hnone]
  · intro h0 h1 h2
    simp only [create_temp_file, create_temp_loop, h0, h1, h2]
    simp

/-- Environment in which every exclusive create fails. -/
def envAllFail : TempEnv :=
  { pid := 1, nanosAt := fun k => k, create_ok := fun _ => false }

/-- Witness for temp_creation_three_attempts: with all creates failing, the
run aborts fatally and persists nothing. -/
theorem temp_creation_three_attempts_witness :
    create_temp_file envAllFail = none ∧
    run_persist envAllFail [] =
      .error "failed to create secure temp file after several attempts" := by
  have h := (temp_creation_three_attempts envAllFail).1 (fun k _ => rfl)
  exact ⟨h.1, h.2 []⟩
